import Mathlib

/-!
Shallow embedding of `scripts/sync-google-sheet.js` (Google Sheet → Supabase
sync engine) and proofs about the claims on its behaviour.

JavaScript numbers are modelled as rationals (`ℚ`); every number produced by
the script's own parsing (`getNumOrNull`) is finite, and the arithmetic the
script performs on them (addition, division by a positive total,
`Math.round(x*100)/100`) is exact on the values the claims mention.
A JavaScript value that is either absent (`undefined`), `null`, or a finite
number is modelled by the inductive `JNum`.
-/

namespace SheetSync

/-- A JavaScript numeric field value: the property may be absent
(`undefined`, e.g. after `delete obj.field`), `null`, or a finite number. -/
inductive JNum where
  | undef : JNum
  | null : JNum
  | num : ℚ → JNum
deriving DecidableEq, Repr

/-- JS `x || 0`: `undefined || 0` and `null || 0` and `0 || 0` are all `0`. -/
def jsOrZero : JNum → ℚ
  | .undef => 0
  | .null => 0
  | .num q => q

/-- JS numeric coercion as used by division: `null` coerces to `0`,
`undefined` coerces to `NaN` (modelled as `none`). -/
def jsToNum : JNum → Option ℚ
  | .undef => none
  | .null => some 0
  | .num q => some q

/-- JS `Math.round`: round half toward positive infinity, `⌊x + 1/2⌋`. -/
def jsRound (x : ℚ) : ℤ := Int.floor (x + 1/2)

/-- `Math.round(x * 100) / 100` — round to 2 decimal places. -/
def jsRound2 (x : ℚ) : ℚ := (jsRound (x * 100) : ℚ) / 100

/-- JS whitespace (the characters relevant to this data: the ASCII part of
the `\s` character class). -/
def isJsSpace (c : Char) : Bool :=
  c = ' ' || c = '\t' || c = '\n' || c = '\r' || c = '\x0b' || c = '\x0c'

/-- JS `String.prototype.trim`: strip whitespace from both ends. -/
def jsTrim (s : String) : String :=
  String.mk (((s.toList.dropWhile isJsSpace).reverse.dropWhile isJsSpace).reverse)

/-- ASCII lower-casing of one character (JS `toLowerCase` on this data). -/
def lowerChar (c : Char) : Char :=
  if 'A' ≤ c ∧ c ≤ 'Z' then Char.ofNat (c.toNat + 32) else c

/-- JS `String.prototype.toLowerCase` (ASCII fragment). -/
def jsToLower (s : String) : String := String.mk (s.toList.map lowerChar)

/-- Value of a digit string (most significant first). -/
def digitsToNat (cs : List Char) : Nat :=
  cs.foldl (fun acc c => acc * 10 + (c.toNat - 48)) 0

/-- Unsigned decimal literal: integer part, optional fractional part.
`none` models `NaN`. -/
def parseUnsignedNumber (body : List Char) : Option ℚ :=
  let intPart := body.takeWhile Char.isDigit
  let rest := body.dropWhile Char.isDigit
  match rest with
  | [] =>
    if intPart.isEmpty then none
    else some (digitsToNat intPart : ℚ)
  | '.' :: frac =>
    if frac.all Char.isDigit && (!intPart.isEmpty || !frac.isEmpty) then
      some ((digitsToNat intPart : ℚ) +
        (digitsToNat frac : ℚ) / (10 ^ frac.length : ℚ))
    else none
  | _ => none

/-- JS `Number(s)` on a trimmed, non-empty string, restricted to the decimal
literals the sheet data can contain: optional sign, integer part, optional
fractional part.  `none` models `NaN` (any other string). -/
def parseJsNumber (s : String) : Option ℚ :=
  match s.toList with
  | '-' :: rest => (parseUnsignedNumber rest).map (fun q => -q)
  | '+' :: rest => parseUnsignedNumber rest
  | cs => parseUnsignedNumber cs

/-! ### TableParser — `parseCSV` (sync-google-sheet.js lines 149–177) -/

/-- `text.replace(/\r\n/g, '\n').replace(/\r/g, '\n')`: normalize CRLF and
lone CR line endings to LF. -/
def normalizeNewlines : List Char → List Char
  | '\r' :: '\n' :: rest => '\n' :: normalizeNewlines rest
  | '\r' :: rest => '\n' :: normalizeNewlines rest
  | c :: rest => c :: normalizeNewlines rest
  | [] => []

/-- JS `String.prototype.split('\n')` (always returns at least one piece). -/
def splitOnNl : List Char → List (List Char)
  | [] => [[]]
  | '\n' :: rest => [] :: splitOnNl rest
  | c :: rest =>
    match splitOnNl rest with
    | [] => [[c]]
    | l :: ls => (c :: l) :: ls

/-- The character loop of `parseCSV` on one line.  `current` is the cell
being accumulated (in reverse), `inQuotes` the quote state.  Mirrors the
source exactly: a pair of quote characters appends one literal quote and
skips both **before** the in-quotes state is consulted; a single quote
toggles the state; a comma outside quotes ends the cell. -/
def parseLine : List Char → List Char → Bool → List String
  | [], current, _ => [String.mk current.reverse]
  | '"' :: '"' :: rest, current, inQuotes => parseLine rest ('"' :: current) inQuotes
  | '"' :: rest, current, inQuotes => parseLine rest current (!inQuotes)
  | ',' :: rest, current, inQuotes =>
    if inQuotes then parseLine rest (',' :: current) inQuotes
    else String.mk current.reverse :: parseLine rest [] inQuotes
  | c :: rest, current, inQuotes => parseLine rest (c :: current) inQuotes

structure ParsedCSV where
  headers : List String
  rows : List (List String)
deriving DecidableEq, Repr

/-- `parseCSV(csvText)`: normalize line endings, split into lines, drop
empty lines, parse each line into cells, take the first row (trimmed) as
headers and the rest as data rows.  `none` models the `TypeError` the
source throws (`rows[0].map` on `undefined`) when no non-blank line exists. -/
def parseCSV (csvText : String) : Option ParsedCSV :=
  let lines := (splitOnNl (normalizeNewlines csvText.toList)).filter (fun l => l.length > 0)
  let rows := lines.map (fun l => parseLine l [] false)
  match rows with
  | [] => none
  | first :: dataRows => some ⟨first.map jsTrim, dataRows⟩

/-! ### HeaderResolver — `normalizeHeaderForMap`, `HEADER_MAP`,
`buildHeaderIndex` (sync-google-sheet.js lines 180–231) -/

/-- Replace every run of whitespace by a single `sep` character (`.replace(/\s+/g, sep)`).
The boolean records whether the previous character was part of a run. -/
def collapseWsAux (sep : Char) : Bool → List Char → List Char
  | _, [] => []
  | prev, c :: rest =>
    if isJsSpace c then
      if prev then collapseWsAux sep true rest
      else sep :: collapseWsAux sep true rest
    else c :: collapseWsAux sep false rest

def collapseWs (sep : Char) (s : String) : String :=
  String.mk (collapseWsAux sep false s.toList)

/-- `normalizeHeaderForMap(key)`:
`key.toLowerCase().replace(/[_-]/g, ' ').replace(/\s+/g, ' ').trim()`. -/
def normalizeHeaderForMap (key : String) : String :=
  jsTrim (collapseWs ' '
    (String.mk ((jsToLower key).toList.map
      (fun c => if c = '_' || c = '-' then ' ' else c))))

/-- The static `HEADER_MAP` alias table. -/
def HEADER_MAP : List (String × String) :=
  [("register no", "register_no"),
   ("register_no", "register_no"),
   ("reg no", "register_no"),
   ("registration number", "register_no"),
   ("name", "name"),
   ("father name", "father_name"),
   ("mother name", "mother_name"),
   ("address", "address"),
   ("class", "class"),
   ("year", "year"),
   ("department", "department"),
   ("cia-1 mark", "cia_1_mark"),
   ("cia 1 mark", "cia_1_mark"),
   ("cia1", "cia_1_mark"),
   ("cia-2 mark", "cia_2_mark"),
   ("cia 2 mark", "cia_2_mark"),
   ("cia2", "cia_2_mark"),
   ("present to class (today)", "present_today"),
   ("present today", "present_today"),
   ("leave taken", "leave_taken"),
   ("email", "email"),
   ("mail", "email"),
   ("phone number", "phone_number"),
   ("phone", "phone_number"),
   ("mobile", "phone_number")]

/-- The canonical field name a raw header label resolves to:
`HEADER_MAP[norm] || norm.replace(/\s+/g, '_')`.  (Note the key `register_no`
normalizes to `register no` before lookup, so the map's literal
`register_no` entry is unreachable, exactly as in the source.) -/
def canonicalHeader (h : String) : String :=
  let norm := normalizeHeaderForMap h
  match HEADER_MAP.lookup norm with
  | some mapped => mapped
  | none => collapseWs '_' norm

/-- `buildHeaderIndex(headers)`: a JS object built by
`index[mapped] = i` for each header in order, so a later column with the
same canonical name overwrites an earlier one.  Modelled as the lookup
function of that object. -/
def buildHeaderIndex (headers : List String) : String → Option Nat :=
  headers.enum.foldl
    (fun index p => fun k => if canonicalHeader p.2 = k then some p.1 else index k)
    (fun _ => none)

/-- Recursive reformulation of `buildHeaderIndex` used in proofs:
search the columns from position `n`, the rightmost match winning. -/
def idxAux (n : Nat) : List String → String → Option Nat
  | [], _ => none
  | h :: rest, k =>
    match idxAux (n + 1) rest k with
    | some j => some j
    | none => if canonicalHeader h = k then some n else none

/-! ### RowNormalizer — `mapRowToStudent`, `validateStudent`
(sync-google-sheet.js lines 233–299) -/

/-- A normalized student row, the return value of `mapRowToStudent`.
String fields are always present (possibly empty); the four academic
fields and the derived percentage are `JNum`s (`mapRowToStudent` itself
produces only `null` or a number for the four, and leaves
`attendance_percentage` absent, i.e. `undef`). -/
structure Student where
  register_no : String
  name : String
  father_name : String
  mother_name : String
  address : String
  className : String
  year : String
  department : String
  cia_1_mark : JNum
  cia_2_mark : JNum
  present_today : JNum
  leave_taken : JNum
  email : String
  phone_number : String
  profile_image_url : String
  attendance_percentage : JNum
deriving DecidableEq, Repr

/-- `getStrOrEmpty(key)` from `mapRowToStudent`: missing column or missing
cell give `''`; otherwise the trimmed cell. -/
def getStrOrEmpty (headerIndex : String → Option Nat) (row : List String) (key : String) : String :=
  match headerIndex key with
  | none => ""
  | some idx =>
    match row.get? idx with
    | none => ""
    | some v => jsTrim v

/-- `getNumOrNull(key)` from `mapRowToStudent`: missing column, missing
cell, blank cell, or a cell that is not a finite number give `null`;
otherwise the parsed number. -/
def getNumOrNull (headerIndex : String → Option Nat) (row : List String) (key : String) : JNum :=
  match headerIndex key with
  | none => .null
  | some idx =>
    match row.get? idx with
    | none => .null
    | some raw =>
      let s := jsTrim raw
      if s = "" then .null
      else
        match parseJsNumber s with
        | some n => .num n
        | none => .null

/-- `mapRowToStudent(headerIndex, row, rowNumber)`, including the
department-from-class fallback.  (The `rowNumber` argument is used by the
source only for logging.) -/
def mapRowToStudent (headerIndex : String → Option Nat) (row : List String)
    (_rowNumber : Nat) : Student :=
  let str := getStrOrEmpty headerIndex row
  let num := getNumOrNull headerIndex row
  let className := str "class"
  let department0 := str "department"
  let department := if department0 = "" ∧ ¬ className = "" then className else department0
  { register_no := str "register_no"
    name := str "name"
    father_name := str "father_name"
    mother_name := str "mother_name"
    address := str "address"
    className := className
    year := str "year"
    department := department
    cia_1_mark := num "cia_1_mark"
    cia_2_mark := num "cia_2_mark"
    present_today := num "present_today"
    leave_taken := num "leave_taken"
    email := str "email"
    phone_number := str "phone_number"
    profile_image_url := str "profile_image_url"
    attendance_percentage := .undef }

/-- `validateStudent(row).warnings`: soft validation, a warning per missing
field, in source order. -/
def validateStudent (row : Student) : List String :=
  (if row.register_no = "" then ["register_no missing"] else []) ++
  (if row.name = "" then ["name missing"] else []) ++
  (if row.department = "" then ["department missing"] else [])

/-! ### AttendanceDeriver — `deriveAttendance`
(sync-google-sheet.js lines 301–305) -/

/-- `deriveAttendance(row)`:
`total = (present || 0) + (leave || 0)`;
`percentage = total > 0 ? (present / total) * 100 : 0`;
`Number.isFinite(percentage) ? Math.round(percentage * 100) / 100 : 0`.
An absent (`undefined`) present-count makes the division `NaN`, which the
finiteness check turns into `0`; a `null` present-count coerces to `0` in
the division. -/
def deriveAttendance (present leave : JNum) : ℚ :=
  let total := jsOrZero present + jsOrZero leave
  if 0 < total then
    match jsToNum present with
    | none => 0
    | some p => jsRound2 (p / total * 100)
  else 0

/-! ### Orchestrator row loop — `syncGoogleSheet`
(sync-google-sheet.js lines 418–447): trim, validate, hard-exclude rows
with a blank key, and apply the academic-group rule to the rest. -/

/-- The `for (const k of Object.keys(row)) if string then trim` pass. -/
def trimStudent (s : Student) : Student :=
  { s with
    register_no := jsTrim s.register_no
    name := jsTrim s.name
    father_name := jsTrim s.father_name
    mother_name := jsTrim s.mother_name
    address := jsTrim s.address
    className := jsTrim s.className
    year := jsTrim s.year
    department := jsTrim s.department
    email := jsTrim s.email
    phone_number := jsTrim s.phone_number
    profile_image_url := jsTrim s.profile_image_url }

/-- `hasAcademicData`: any of the four academic fields is `!== null`.
Note an absent (`undefined`, deleted) field also counts, because
`undefined !== null` holds in JavaScript. -/
def hasAcademicData (s : Student) : Bool :=
  s.cia_1_mark ≠ JNum.null || s.cia_2_mark ≠ JNum.null ||
  s.present_today ≠ JNum.null || s.leave_taken ≠ JNum.null

/-- The academic-group step of the `syncGoogleSheet` row loop: a row with
no academic data has the four fields and the derived percentage deleted
(made absent); otherwise `attendance_percentage = deriveAttendance(row)`. -/
def prepareRow (s : Student) : Student :=
  if hasAcademicData s then
    { s with attendance_percentage := .num (deriveAttendance s.present_today s.leave_taken) }
  else
    { s with cia_1_mark := .undef, cia_2_mark := .undef,
             present_today := .undef, leave_taken := .undef,
             attendance_percentage := .undef }

/-- Outcome of the row loop: the valid rows (in order) and, for each
failed row, its sheet row number (`idx + 2`) with the failure reason. -/
structure RowLoopOut where
  validRows : List Student
  failedRows : List (Nat × String)
deriving DecidableEq, Repr

/-- The row loop of `syncGoogleSheet`, starting at index `idx`. -/
def processAux (idx : Nat) : List Student → RowLoopOut
  | [] => ⟨[], []⟩
  | r :: rest =>
    let row := trimStudent r
    let out := processAux (idx + 1) rest
    if row.register_no = "" then
      ⟨out.validRows, (idx + 2, "register_no missing") :: out.failedRows⟩
    else
      ⟨prepareRow row :: out.validRows, out.failedRows⟩

/-- The full row loop over the normalized rows (`idx` starts at 0). -/
def processRows (normalized : List Student) : RowLoopOut := processAux 0 normalized

/-- `validRows.map(r => r.register_no)`: the source keys handed to
`deleteMissingStudents` as deletion protection. -/
def sheetRegisterNos (out : RowLoopOut) : List String :=
  out.validRows.map Student.register_no

/-! ### PartialUpdatePolicy / BatchUpserter — per-row payload construction
inside `upsertStudents` (sync-google-sheet.js lines 308–350). -/

/-- One row of an upsert batch.  The string profile fields are always
present; `email` / `phone_number` are `none` when deleted from the
payload; the academic `JNum`s are `undef` when deleted. -/
structure Payload where
  register_no : String
  name : String
  father_name : String
  mother_name : String
  address : String
  className : String
  year : String
  department : String
  profile_image_url : String
  cia_1_mark : JNum
  cia_2_mark : JNum
  present_today : JNum
  leave_taken : JNum
  attendance_percentage : JNum
  email : Option String
  phone_number : Option String
deriving DecidableEq, Repr

/-- The body of `batch.map(s => ...)` in `upsertStudents`: spread the row,
delete the academic group when `hasAcademicData` is false, otherwise
recompute the percentage from `present_today || 0` and `leave_taken || 0`;
finally delete a blank `email` or `phone_number`. -/
def upsertPayload (s : Student) : Payload :=
  let base : Payload :=
    { register_no := s.register_no
      name := s.name
      father_name := s.father_name
      mother_name := s.mother_name
      address := s.address
      className := s.className
      year := s.year
      department := s.department
      profile_image_url := s.profile_image_url
      cia_1_mark := s.cia_1_mark
      cia_2_mark := s.cia_2_mark
      present_today := s.present_today
      leave_taken := s.leave_taken
      attendance_percentage := s.attendance_percentage
      email := some s.email
      phone_number := some s.phone_number }
  let pct := deriveAttendance (.num (jsOrZero s.present_today)) (.num (jsOrZero s.leave_taken))
  let withAcad :=
    if hasAcademicData s then
      { base with attendance_percentage := JNum.num pct }
    else
      { base with cia_1_mark := .undef, cia_2_mark := .undef,
                  present_today := .undef, leave_taken := .undef,
                  attendance_percentage := .undef }
  { withAcad with
    email := if jsTrim s.email = "" then none else withAcad.email
    phone_number := if jsTrim s.phone_number = "" then none else withAcad.phone_number }

/-- A stored `students` row as the claims need it: the academic columns
are nullable numbers, the contact columns nullable strings. -/
structure StoredStudent where
  register_no : String
  name : String
  father_name : String
  mother_name : String
  address : String
  className : String
  year : String
  department : String
  profile_image_url : String
  cia_1_mark : Option ℚ
  cia_2_mark : Option ℚ
  present_today : Option ℚ
  leave_taken : Option ℚ
  attendance_percentage : Option ℚ
  email : Option String
  phone_number : Option String
deriving DecidableEq, Repr

/-- The conflict-update half of `upsert(batch, { onConflict: 'register_no' })`
on an existing row: every column present in the payload overwrites the
stored value (a `null` overwrites with NULL); a column absent from the
payload keeps the stored value. -/
def applyPayload (st : StoredStudent) (p : Payload) : StoredStudent :=
  let numCol : JNum → Option ℚ → Option ℚ := fun j old =>
    match j with
    | .undef => old
    | .null => none
    | .num q => some q
  { register_no := p.register_no
    name := p.name
    father_name := p.father_name
    mother_name := p.mother_name
    address := p.address
    className := p.className
    year := p.year
    department := p.department
    profile_image_url := p.profile_image_url
    cia_1_mark := numCol p.cia_1_mark st.cia_1_mark
    cia_2_mark := numCol p.cia_2_mark st.cia_2_mark
    present_today := numCol p.present_today st.present_today
    leave_taken := numCol p.leave_taken st.leave_taken
    attendance_percentage := numCol p.attendance_percentage st.attendance_percentage
    email := match p.email with | none => st.email | some e => some e
    phone_number := match p.phone_number with | none => st.phone_number | some e => some e }

/-! ### ReconciliationDeleter — `deleteMissingStudents`
(sync-google-sheet.js lines 353–373) -/

/-- `Array.from(new Set(xs))`: deduplicate keeping the first occurrence. -/
def dedupAux (seen : List String) : List String → List String
  | [] => []
  | x :: rest =>
    if x ∈ seen then dedupAux seen rest
    else x :: dedupAux (x :: seen) rest

def dedup (xs : List String) : List String := dedupAux [] xs

/-- `sheetRegisterNos.map(r => String(r || '').trim()).filter(r => r.length > 0)`
followed by `Set` deduplication. -/
def uniqueNos (sheetNos : List String) : List String :=
  dedup ((sheetNos.map jsTrim).filter (fun r => r ≠ ""))

/-- `existing.map(r => String(r.register_no || '').trim()).filter(r => r.length > 0)`. -/
def existingNos (storedNos : List String) : List String :=
  (storedNos.map jsTrim).filter (fun r => r ≠ "")

/-- The write the deletion pass performs on the store. -/
inductive DeleteAction where
  | deleteAll : DeleteAction
  | deleteSome : List String → DeleteAction
  | noop : DeleteAction
deriving DecidableEq, Repr

/-- `deleteMissingStudents(sheetRegisterNos)` given the keys currently in
the store: an empty cleaned source key set deletes every stored row;
otherwise it deletes `missingNos = existingNos.filter(r => !uniqueNos.includes(r))`,
doing nothing when that list is empty. -/
def deleteMissingStudents (sheetNos storedNos : List String) : DeleteAction :=
  let uniq := uniqueNos sheetNos
  if uniq = [] then .deleteAll
  else
    let missingNos := (existingNos storedNos).filter (fun r => ¬ uniq.contains r)
    if missingNos = [] then .noop
    else .deleteSome missingNos

/-- The set of stored keys a `DeleteAction` removes. -/
def deletedKeys (act : DeleteAction) (stored : List String) : List String :=
  match act with
  | .deleteAll => stored
  | .deleteSome ks => ks
  | .noop => []

/-! ### SourceAdapter retry — `fetchWithRetry`
(sync-google-sheet.js lines 67–82) -/

/-- What one call to `fetch` does on a given attempt: a success
(`res.ok`, carrying an abstract response id), a non-success HTTP status
(the loop throws `HTTP <status> ...`), or a thrown network error. -/
inductive AttemptOutcome where
  | success : Nat → AttemptOutcome
  | httpFail : Nat → AttemptOutcome
  | netFail : String → AttemptOutcome
deriving DecidableEq, Repr

def isFail : AttemptOutcome → Bool
  | .success _ => false
  | .httpFail _ => true
  | .netFail _ => true

/-- The error carried by a failed attempt (`HTTP ${status}` for a
non-success response, the thrown message otherwise). -/
def outcomeErr : AttemptOutcome → String
  | .success _ => ""
  | .httpFail status => "HTTP " ++ toString status
  | .netFail msg => msg

/-- How a run of `fetchWithRetry` ends: a returned response, a re-thrown
last error, or JS `undefined` (the loop body never runs, `maxRetries = 0`). -/
inductive RetryResult where
  | value : Nat → RetryResult
  | thrown : String → RetryResult
  | undef : RetryResult
deriving DecidableEq, Repr

structure RetryTrace where
  result : RetryResult
  attemptsMade : Nat
  delays : List Nat
deriving DecidableEq, Repr

/-- The `while (attempt < maxRetries)` loop of `fetchWithRetry`.  `fuel`
is `maxRetries - attempt`, so `fuel = 0` exactly when the loop guard
fails.  On a failed attempt the counter becomes `attempt + 1`; if it has
reached `maxRetries` the last error is re-thrown, otherwise the loop
sleeps `backoffMs * (attempt + 1)` and retries. -/
def retryAux (outcomes : Nat → AttemptOutcome) (maxRetries backoffMs : Nat) :
    Nat → Nat → List Nat → RetryTrace
  | 0, attempt, delays => ⟨.undef, attempt, delays⟩
  | fuel + 1, attempt, delays =>
    match outcomes attempt with
    | .success v => ⟨.value v, attempt + 1, delays⟩
    | o =>
      if maxRetries ≤ attempt + 1 then ⟨.thrown (outcomeErr o), attempt + 1, delays⟩
      else retryAux outcomes maxRetries backoffMs fuel (attempt + 1)
        (delays ++ [backoffMs * (attempt + 1)])

/-- `fetchWithRetry(url, options, maxRetries, backoffMs)` as a function of
the outcome each attempt would have. -/
def fetchWithRetry (outcomes : Nat → AttemptOutcome) (maxRetries backoffMs : Nat) : RetryTrace :=
  retryAux outcomes maxRetries backoffMs maxRetries 0 []

/-! ### Shared concrete fixtures -/

/-- The end-to-end example header row from the spec. -/
def sampleHeaders : List String := ["Register No", "Name", "Present Today", "Leave Taken"]

def sampleIndex : String → Option Nat := buildHeaderIndex sampleHeaders

/-- The normalized form of the sheet row `["S1", "Alice", "18", "2"]`
under `sampleHeaders`. -/
def studentS1 : Student :=
  { register_no := "S1", name := "Alice", father_name := "", mother_name := "",
    address := "", className := "", year := "", department := "",
    cia_1_mark := .null, cia_2_mark := .null,
    present_today := .num 18, leave_taken := .num 2,
    email := "", phone_number := "", profile_image_url := "",
    attendance_percentage := .undef }

/-- The normalized form of the sheet row `["S2", "Bob", "", ""]` under
`sampleHeaders`: all four academic fields null. -/
def studentS2 : Student :=
  { register_no := "S2", name := "Bob", father_name := "", mother_name := "",
    address := "", className := "", year := "", department := "",
    cia_1_mark := .null, cia_2_mark := .null,
    present_today := .null, leave_taken := .null,
    email := "", phone_number := "", profile_image_url := "",
    attendance_percentage := .undef }

/-- A stored row for S2 holding earlier academic data and contact
information, which a later sparse sync run should leave untouched. -/
def stored0 : StoredStudent :=
  { register_no := "S2", name := "Alice", father_name := "F", mother_name := "M",
    address := "Street 1", className := "CSE-A", year := "2", department := "CSE",
    profile_image_url := "",
    cia_1_mark := some 40, cia_2_mark := some 42,
    present_today := some 19, leave_taken := some 1,
    attendance_percentage := some 95,
    email := some "alice@example.com", phone_number := some "12345" }

/-! ### Claim C6 — CSV parsing features -/

/-- C6: the CSV parser handles quote-wrapped fields, delimiters embedded in
quoted fields, doubled-quote escaping, CRLF/CR/LF line endings, drops blank
lines, and takes the first parsed row (trimmed) as headers; in particular
the field `"Doe, ""Jr"""` parses to the single cell `Doe, "Jr"`. -/
theorem c6_csv_parsing :
    parseCSV " Name ,Note\r\n\"Doe, \"\"Jr\"\"\",ok\rY,Z\n\nLast,1" =
      some ⟨["Name", "Note"], [["Doe, \"Jr\"", "ok"], ["Y", "Z"], ["Last", "1"]]⟩ := by
  decide

/-! ### Claim C10 — double-quote collapsing happens regardless of quote state -/

/-- C10: in the parser's character loop two consecutive quote characters
always collapse to one literal quote appended to the current cell, whether
or not the parser is inside a quoted field; consequently the empty quoted
field in `a,"",b` parses to a cell holding one literal quote character
instead of the empty string. -/
theorem c10_double_quote_collapse :
    (∀ (rest current : List Char) (inQuotes : Bool),
      parseLine ('"' :: '"' :: rest) current inQuotes
        = parseLine rest ('"' :: current) inQuotes) ∧
    parseCSV "h\na,\"\",b" = some ⟨["h"], [["a", "\"", "b"]]⟩ := by
  constructor
  · intro rest current inQuotes
    rfl
  · decide

/-! ### Claim C7 — header alias resolution, last column wins -/

/-- If no column of `hs` resolves to `c`, the search finds nothing. -/
lemma idxAux_eq_none {c : String} (hs : List String) (n : Nat)
    (h : ∀ h' ∈ hs, canonicalHeader h' ≠ c) : idxAux n hs c = none := by
  induction hs generalizing n with
  | nil => rfl
  | cons h0 rest ih =>
    have h0ne : canonicalHeader h0 ≠ c := h h0 (List.mem_cons_self _ _)
    have hrest : ∀ h' ∈ rest, canonicalHeader h' ≠ c :=
      fun h' hm => h h' (List.mem_cons_of_mem _ hm)
    simp [idxAux, ih n.succ hrest, h0ne]

/-- The rightmost column resolving to `c` is the one the search returns. -/
lemma idxAux_eq_last {c : String} (hs : List String) (n j : Nat) (h : String)
    (hj : hs.get? j = some h) (hc : canonicalHeader h = c)
    (hlast : ∀ k, k < hs.length → j < k →
      ∀ h', hs.get? k = some h' → canonicalHeader h' ≠ c) :
    idxAux n hs c = some (n + j) := by
  induction hs generalizing n j with
  | nil => simp at hj
  | cons h0 rest ih =>
    cases j with
    | zero =>
      have hh : h0 = h := by simpa using hj
      have hnone : idxAux (n + 1) rest c = none := by
        apply idxAux_eq_none
        intro h' hm
        obtain ⟨⟨k', hk'⟩, hget⟩ := List.mem_iff_get.mp hm
        apply hlast (k' + 1) (by simpa using Nat.succ_lt_succ hk') (Nat.succ_pos _) h'
        have hgetElem : rest[k'] = h' := by simpa [List.get_eq_getElem] using hget
        simp [List.getElem?_eq_getElem hk', hgetElem]
      subst hh
      simp [idxAux, hnone, hc]
    | succ j' =>
      have hj' : rest.get? j' = some h := by simpa using hj
      have hlast' : ∀ k, k < rest.length → j' < k →
          ∀ h', rest.get? k = some h' → canonicalHeader h' ≠ c := by
        intro k hk hjk h' hget
        exact hlast (k + 1) (by simpa using hk) (Nat.succ_lt_succ hjk) h' (by simpa using hget)
      have := ih (n + 1) j' hj' hlast'
      simp [idxAux, this, Nat.add_assoc, Nat.add_comm 1 j']

/-- The object-building fold of `buildHeaderIndex` is the right-to-left
search `idxAux`. -/
lemma buildHeaderIndex_eq_idxAux (headers : List String) (k : String) :
    buildHeaderIndex headers k = idxAux 0 headers k := by
  suffices h : ∀ (hs : List String) (n : Nat) (acc : String → Option Nat) (k : String),
      ((List.enumFrom n hs).foldl
        (fun index p => fun k => if canonicalHeader p.2 = k then some p.1 else index k) acc) k
        = match idxAux n hs k with
          | some j => some j
          | none => acc k by
    calc buildHeaderIndex headers k
        = match idxAux 0 headers k with
          | some j => some j
          | none => none := h headers 0 (fun _ => none) k
      _ = idxAux 0 headers k := by cases idxAux 0 headers k <;> rfl
  intro hs
  induction hs with
  | nil => intro n acc k; rfl
  | cons h0 rest ih =>
    intro n acc k
    have := ih (n + 1) (fun k => if canonicalHeader h0 = k then some n else acc k) k
    simp only [List.enumFrom, List.foldl_cons] at this ⊢
    rw [this]
    cases hrec : idxAux (n + 1) rest k with
    | some j => simp [idxAux, hrec]
    | none =>
      by_cases hc : canonicalHeader h0 = k
      · simp [idxAux, hrec, hc]
      · simp [idxAux, hrec, hc]

/-- C7: header labels are case-folded with separators collapsed, mapped
through the alias table (so `Reg No`, `REGISTER_NO` and
`Registration Number` all resolve to `register_no`), unmatched labels fall
back to spaces-to-underscores, and when two columns resolve to the same
canonical name the later column's position wins. -/
theorem c7_header_resolution :
    canonicalHeader "Reg No" = "register_no" ∧
    canonicalHeader "REGISTER_NO" = "register_no" ∧
    canonicalHeader "Registration Number" = "register_no" ∧
    (∀ label, HEADER_MAP.lookup (normalizeHeaderForMap label) = none →
      canonicalHeader label = collapseWs '_' (normalizeHeaderForMap label)) ∧
    (∀ (headers : List String) (j : Nat) (h c : String),
      headers.get? j = some h → canonicalHeader h = c →
      (∀ k, k < headers.length → j < k →
        ∀ h', headers.get? k = some h' → canonicalHeader h' ≠ c) →
      buildHeaderIndex headers c = some j) := by
  refine ⟨by decide, by decide, by decide, ?_, ?_⟩
  · intro label hnone
    simp [canonicalHeader, hnone]
  · intro headers j h c hj hc hlast
    rw [buildHeaderIndex_eq_idxAux]
    simpa using idxAux_eq_last headers 0 j h hj hc hlast

/-- C7 witness: among `["Reg No", "Name", "REGISTER_NO"]` the two columns
that both resolve to `register_no` are 0 and 2, and the index maps
`register_no` to the later column 2. -/
theorem c7_header_resolution_witness :
    buildHeaderIndex ["Reg No", "Name", "REGISTER_NO"] "register_no" = some 2 :=
  c7_header_resolution.2.2.2.2 ["Reg No", "Name", "REGISTER_NO"] 2 "REGISTER_NO"
    "register_no" (by decide) (by decide) (by decide)

/-! ### Claim C2 — full-mirror reconciliation deletion -/

lemma mem_dedupAux {a : String} : ∀ (xs seen : List String),
    a ∈ dedupAux seen xs ↔ a ∈ xs ∧ a ∉ seen := by
  intro xs
  induction xs with
  | nil => intro seen; simp [dedupAux]
  | cons x rest ih =>
    intro seen
    by_cases hx : x ∈ seen
    · simp only [dedupAux, if_pos hx, ih]
      constructor
      · rintro ⟨hmem, hns⟩
        exact ⟨List.mem_cons_of_mem _ hmem, hns⟩
      · rintro ⟨hmem, hns⟩
        rcases List.mem_cons.mp hmem with rfl | hmem
        · exact absurd hx hns
        · exact ⟨hmem, hns⟩
    · simp only [dedupAux, if_neg hx, List.mem_cons, ih]
      constructor
      · rintro (rfl | ⟨hmem, hns⟩)
        · exact ⟨Or.inl rfl, hx⟩
        · exact ⟨Or.inr hmem, fun hs => hns (Or.inr hs)⟩
      · rintro ⟨rfl | hmem, hns⟩
        · exact Or.inl rfl
        · by_cases hax : a = x
          · exact Or.inl hax
          · exact Or.inr ⟨hmem, fun hs => hs.elim hax hns⟩

lemma mem_dedup {a : String} {xs : List String} : a ∈ dedup xs ↔ a ∈ xs := by
  simp [dedup, mem_dedupAux]

lemma dedup_eq_nil {xs : List String} : dedup xs = [] ↔ xs = [] := by
  cases xs with
  | nil => simp [dedup, dedupAux]
  | cons x rest => simp [dedup, dedupAux]

/-- C2: writing `clean` for the trimmed, non-blank source key list — if
`clean` is empty the deleter removes every stored row; otherwise the keys
it deletes are exactly the cleaned stored keys absent from `clean`, and
when no stored key is absent it performs no deletion at all. -/
theorem c2_reconciliation (sheetNos storedNos : List String) :
    ((sheetNos.map jsTrim).filter (fun r => r ≠ "") = [] →
      deleteMissingStudents sheetNos storedNos = .deleteAll ∧
      deletedKeys (deleteMissingStudents sheetNos storedNos) (existingNos storedNos)
        = existingNos storedNos) ∧
    ((sheetNos.map jsTrim).filter (fun r => r ≠ "") ≠ [] →
      (∀ r, r ∈ deletedKeys (deleteMissingStudents sheetNos storedNos) (existingNos storedNos)
        ↔ r ∈ existingNos storedNos ∧ r ∉ (sheetNos.map jsTrim).filter (fun x => x ≠ "")) ∧
      ((∀ r ∈ existingNos storedNos, r ∈ (sheetNos.map jsTrim).filter (fun x => x ≠ "")) →
        deleteMissingStudents sheetNos storedNos = .noop)) := by
  have hcontains : ∀ (r : String),
      (uniqueNos sheetNos).contains r = true ↔ r ∈ (sheetNos.map jsTrim).filter (fun x => x ≠ "") := by
    intro r
    show List.elem r (uniqueNos sheetNos) = true ↔ _
    rw [List.elem_iff]
    simp only [uniqueNos]
    exact mem_dedup
  constructor
  · intro hclean
    have huniq : uniqueNos sheetNos = [] := by
      rw [uniqueNos, hclean]; rfl
    constructor
    · simp [deleteMissingStudents, huniq]
    · simp [deleteMissingStudents, huniq, deletedKeys]
  · intro hclean
    have huniq : uniqueNos sheetNos ≠ [] := fun h => hclean (dedup_eq_nil.mp h)
    constructor
    · intro r
      by_cases hmiss :
          (existingNos storedNos).filter (fun x => ¬ (uniqueNos sheetNos).contains x) = []
      · simp only [deleteMissingStudents, if_neg huniq, if_pos hmiss, deletedKeys]
        constructor
        · intro h; exact absurd h (List.not_mem_nil r)
        · rintro ⟨hmem, hnot⟩
          have : r ∈ (existingNos storedNos).filter (fun x => ¬ (uniqueNos sheetNos).contains x) := by
            refine List.mem_filter.mpr ⟨hmem, ?_⟩
            simp only [decide_eq_true_eq]
            intro hc
            exact hnot ((hcontains r).mp hc)
          rw [hmiss] at this
          exact absurd this (List.not_mem_nil r)
      · simp only [deleteMissingStudents, if_neg huniq, if_neg hmiss, deletedKeys]
        rw [List.mem_filter]
        constructor
        · rintro ⟨hmem, hdec⟩
          refine ⟨hmem, fun hc => ?_⟩
          simp only [decide_eq_true_eq] at hdec
          exact hdec ((hcontains r).mpr hc)
        · rintro ⟨hmem, hnot⟩
          refine ⟨hmem, ?_⟩
          simp only [decide_eq_true_eq]
          intro hc
          exact hnot ((hcontains r).mp hc)
    · intro hall
      have hmiss :
          (existingNos storedNos).filter (fun x => ¬ (uniqueNos sheetNos).contains x) = [] := by
        rw [List.filter_eq_nil_iff]
        intro x hx
        simp only [decide_eq_true_eq]
        intro hc
        exact hc ((hcontains x).mpr (hall x hx))
      simp only [deleteMissingStudents, if_neg huniq, hmiss, if_pos]

/-- C2 witness: the spec's example — store keys `{A,B,C}`, source keys
`{B,C,D}` — deletes exactly `A`. -/
theorem c2_reconciliation_witness :
    ("A" ∈ deletedKeys (deleteMissingStudents ["B", "C", "D"] ["A", "B", "C"])
        (existingNos ["A", "B", "C"])
      ↔ "A" ∈ existingNos ["A", "B", "C"]
          ∧ "A" ∉ ((["B", "C", "D"].map jsTrim).filter (fun x => x ≠ ""))) :=
  ((c2_reconciliation ["B", "C", "D"] ["A", "B", "C"]).2 (by decide)).1 "A"

/-! ### Claim C9 — retry policy of `fetchWithRetry` -/

/-- C9: with the default of 3 retries, a wrapped fetch is attempted at most
3 times; a non-success HTTP status and a thrown network error both count as
failed attempts; the delay after failed attempt `n` is `backoffMs * n`
(linear backoff); when all 3 attempts fail the last error is re-thrown; a
success stops the loop immediately. -/
theorem c9_fetch_retry (outcomes : Nat → AttemptOutcome) (backoffMs : Nat) :
    (fetchWithRetry outcomes 3 backoffMs).attemptsMade ≤ 3 ∧
    (∀ status, isFail (AttemptOutcome.httpFail status) = true) ∧
    (∀ msg, isFail (AttemptOutcome.netFail msg) = true) ∧
    ((∀ i, i < 3 → isFail (outcomes i) = true) →
      fetchWithRetry outcomes 3 backoffMs =
        ⟨.thrown (outcomeErr (outcomes 2)), 3, [backoffMs * 1, backoffMs * 2]⟩) ∧
    (∀ v, outcomes 0 = .success v →
      fetchWithRetry outcomes 3 backoffMs = ⟨.value v, 1, []⟩) ∧
    (∀ v, isFail (outcomes 0) = true → outcomes 1 = .success v →
      fetchWithRetry outcomes 3 backoffMs = ⟨.value v, 2, [backoffMs * 1]⟩) := by
  refine ⟨?_, fun _ => rfl, fun _ => rfl, ?_, ?_, ?_⟩
  · show (retryAux outcomes 3 backoffMs 3 0 []).attemptsMade ≤ 3
    cases h0 : outcomes 0 <;> simp [retryAux, h0] <;>
      cases h1 : outcomes 1 <;> simp [retryAux, h1] <;>
        cases h2 : outcomes 2 <;> simp [retryAux, h2]
  · intro hfail
    have h0 := hfail 0 (by omega)
    have h1 := hfail 1 (by omega)
    have h2 := hfail 2 (by omega)
    show retryAux outcomes 3 backoffMs 3 0 [] = _
    cases o0 : outcomes 0 <;> rw [o0] at h0 <;> simp [isFail] at h0
    all_goals
      cases o1 : outcomes 1 <;> rw [o1] at h1 <;> simp [isFail] at h1
    all_goals
      cases o2 : outcomes 2 <;> rw [o2] at h2 <;> simp [isFail] at h2
    all_goals simp [retryAux, o0, o1, o2, outcomeErr]
  · intro v h0
    show retryAux outcomes 3 backoffMs 3 0 [] = _
    simp [retryAux, h0]
  · intro v h0 h1
    show retryAux outcomes 3 backoffMs 3 0 [] = _
    cases o0 : outcomes 0 <;> rw [o0] at h0 <;> simp [isFail] at h0
    all_goals simp [retryAux, o0, h1]

/-- C9 witness: three straight HTTP failures exhaust the 3 attempts, wait
`100 * 1` then `100 * 2` milliseconds, and re-throw the third error. -/
theorem c9_fetch_retry_witness :
    fetchWithRetry (fun i => AttemptOutcome.httpFail (500 + i)) 3 100 =
      ⟨.thrown (outcomeErr ((fun i => AttemptOutcome.httpFail (500 + i)) 2)), 3, [100 * 1, 100 * 2]⟩ :=
  (c9_fetch_retry (fun i => AttemptOutcome.httpFail (500 + i)) 100).2.2.2.1
    (by intro i _; rfl)

/-! ### Claim C8 — soft warnings vs hard key exclusion -/

/-- Characterization of the row loop: the valid rows are exactly the
trimmed rows with a non-blank key (prepared), the failed entries count the
trimmed rows with a blank key. -/
lemma processAux_spec (rows : List Student) : ∀ idx : Nat,
    (processAux idx rows).validRows
      = ((rows.map trimStudent).filter (fun r => r.register_no ≠ "")).map prepareRow ∧
    (processAux idx rows).failedRows.length
      = ((rows.map trimStudent).filter (fun r => r.register_no = "")).length := by
  induction rows with
  | nil => intro idx; exact ⟨rfl, rfl⟩
  | cons r rest ih =>
    intro idx
    obtain ⟨ihv, ihf⟩ := ih (idx + 1)
    by_cases hkey : (trimStudent r).register_no = ""
    · constructor
      · simp [processAux, hkey, ihv]
      · simp [processAux, hkey, ihf]
    · constructor
      · simp [processAux, hkey, ihv]
      · simp [processAux, hkey, ihf]

/-- C8: a missing name or department only adds a warning and the row is
still processed and upserted; a missing identity key excludes the row from
the upsert set and from the deletion-protection key set, is counted in the
failed-rows tally, and the remaining rows are still processed. -/
theorem c8_soft_and_hard_validation :
    (∀ r : Student, r.name = "" → "name missing" ∈ validateStudent r) ∧
    (∀ r : Student, r.department = "" → "department missing" ∈ validateStudent r) ∧
    (∀ rows : List Student,
      (processRows rows).validRows
        = ((rows.map trimStudent).filter (fun r => r.register_no ≠ "")).map prepareRow ∧
      (processRows rows).failedRows.length
        = ((rows.map trimStudent).filter (fun r => r.register_no = "")).length ∧
      (∀ k, k ∈ sheetRegisterNos (processRows rows) → k ≠ "") ∧
      (∀ r, r ∈ rows → (trimStudent r).register_no ≠ "" →
        prepareRow (trimStudent r) ∈ (processRows rows).validRows)) := by
  refine ⟨?_, ?_, ?_⟩
  · intro r h
    simp [validateStudent, h]
  · intro r h
    simp [validateStudent, h]
  · intro rows
    obtain ⟨hv, hf⟩ := processAux_spec rows 0
    refine ⟨hv, hf, ?_, ?_⟩
    · intro k hk
      simp only [sheetRegisterNos, processRows] at hk
      rw [hv] at hk
      obtain ⟨s, hs, hks⟩ := List.mem_map.mp hk
      obtain ⟨t, ht, hts⟩ := List.mem_map.mp hs
      have := (List.mem_filter.mp ht).2
      rw [← hks, ← hts]
      simp only [prepareRow]
      split <;> simpa using this
    · intro r hr hkey
      simp only [processRows]
      rw [hv]
      refine List.mem_map_of_mem prepareRow (List.mem_filter.mpr ⟨?_, by simpa using hkey⟩)
      exact List.mem_map_of_mem trimStudent hr

/-- C8 witness: with a keyless row first, the keyed row `S1` (which has
blank department, so validation warns) is still processed, the keyless row
is counted as failed, and the key list used for deletion protection
excludes the blank key. -/
theorem c8_soft_and_hard_validation_witness :
    ("department missing" ∈ validateStudent studentS1) ∧
    prepareRow (trimStudent studentS1)
      ∈ (processRows [{ studentS2 with register_no := "" }, studentS1]).validRows :=
  ⟨c8_soft_and_hard_validation.2.1 studentS1 (by decide),
   (c8_soft_and_hard_validation.2.2 [{ studentS2 with register_no := "" }, studentS1]).2.2.2
     studentS1 (by decide) (by decide)⟩

/-! ### Claim C4 — attendance derivation -/

/-- C4 counterexample: the normalized row `["S1", "Alice", "18", ""]` has
`leave_taken = null`, yet the academic group counts as supplied (because
`present_today` is non-null) and the percentage `100` IS written — the
claim's "present_today or leave_taken is null ⇒ group unsupplied, no value
written" is false on the code. -/
theorem c4_null_leave_percentage_still_written :
    (trimStudent (mapRowToStudent sampleIndex ["S1", "Alice", "18", ""] 2)).leave_taken
        = JNum.null ∧
    (prepareRow (trimStudent (mapRowToStudent sampleIndex ["S1", "Alice", "18", ""] 2))).attendance_percentage
        = JNum.num 100 := by
  constructor
  · decide
  · have h : trimStudent (mapRowToStudent sampleIndex ["S1", "Alice", "18", ""] 2)
        = { studentS1 with leave_taken := JNum.null } := by decide
    rw [h]
    simp [prepareRow, studentS1, hasAcademicData]
    norm_num [deriveAttendance, jsOrZero, jsToNum, jsRound2, jsRound]

/-- C4 (amended): when the academic group is supplied the derived
percentage equals `present / (present + leave) × 100` rounded to 2 decimal
places with `0` when the total is `≤ 0` (null inputs coerce to 0); in
particular 18/2 gives 90 and 0/0 gives 0; and it is only when all four
academic fields are null that no percentage is written. -/
theorem c4_attendance_derivation :
    (∀ p l : ℚ, 0 < p + l →
      deriveAttendance (.num p) (.num l) = jsRound2 (p / (p + l) * 100)) ∧
    (∀ p l : ℚ, p + l ≤ 0 → deriveAttendance (.num p) (.num l) = 0) ∧
    deriveAttendance (.num 18) (.num 2) = 90 ∧
    deriveAttendance (.num 0) (.num 0) = 0 ∧
    (∀ s : Student, hasAcademicData s = false →
      (prepareRow s).attendance_percentage = JNum.undef) ∧
    (∀ s : Student, hasAcademicData s = true →
      (prepareRow s).attendance_percentage
        = JNum.num (deriveAttendance s.present_today s.leave_taken)) := by
  refine ⟨?_, ?_, ?_, ?_, ?_, ?_⟩
  · intro p l h
    simp [deriveAttendance, jsOrZero, jsToNum, h]
  · intro p l h
    have h' : ¬ (0 : ℚ) < p + l := not_lt.mpr h
    simp [deriveAttendance, jsOrZero, jsToNum, h']
  · norm_num [deriveAttendance, jsOrZero, jsToNum, jsRound2, jsRound]
  · norm_num [deriveAttendance, jsOrZero, jsToNum, jsRound2, jsRound]
  · intro s h
    simp [prepareRow, h]
  · intro s h
    simp [prepareRow, h]

/-- C4 witness: the fully supplied row S1 (present 18, leave 2) gets the
recomputed percentage written. -/
theorem c4_attendance_derivation_witness :
    (prepareRow studentS1).attendance_percentage
      = JNum.num (deriveAttendance studentS1.present_today studentS1.leave_taken) :=
  c4_attendance_derivation.2.2.2.2.2 studentS1 (by decide)

/-! ### Claim C5 — range of the derived percentage -/

lemma jsRound2_nonneg {x : ℚ} (h : 0 ≤ x) : 0 ≤ jsRound2 x := by
  unfold jsRound2 jsRound
  apply div_nonneg _ (by norm_num)
  have hfl : (0 : ℤ) ≤ ⌊x * 100 + 1/2⌋ := Int.le_floor.mpr (by push_cast; nlinarith)
  exact_mod_cast hfl

lemma jsRound2_le_100 {x : ℚ} (h : x ≤ 100) : jsRound2 x ≤ 100 := by
  have h1 : ⌊x * 100 + 1/2⌋ ≤ ⌊(20001 : ℚ)/2⌋ := Int.floor_le_floor (by nlinarith)
  have h2 : ⌊(20001 : ℚ)/2⌋ = 10000 := by norm_num
  unfold jsRound2 jsRound
  rw [div_le_iff₀ (by norm_num : (0:ℚ) < 100)]
  have h3 : (⌊x * 100 + 1/2⌋ : ℚ) ≤ 10000 := by exact_mod_cast h2 ▸ h1
  linarith

lemma jsRound2_mem {pv total : ℚ} (h0 : 0 < total) (hpv : 0 ≤ pv) (hle : pv ≤ total) :
    0 ≤ jsRound2 (pv / total * 100) ∧ jsRound2 (pv / total * 100) ≤ 100 := by
  have hx0 : 0 ≤ pv / total * 100 := by positivity
  have hx1 : pv / total * 100 ≤ 100 := by
    have hd : pv / total ≤ 1 := (div_le_one h0).mpr hle
    nlinarith
  exact ⟨jsRound2_nonneg hx0, jsRound2_le_100 hx1⟩

/-- A field value that is not a negative number (absent, null, or a
non-negative number). -/
def nonnegJNum : JNum → Bool
  | .num q => decide (0 ≤ q)
  | _ => true

/-- C5 counterexample: the cell `"-5"` parses to the finite number `-5`,
and the pipeline then writes the derived percentage `-100`, outside
`[0,100]` — the claimed invariant fails for negative source values. -/
theorem c5_negative_input_breaks_range :
    parseJsNumber "-5" = some (-5) ∧
    (prepareRow (trimStudent (mapRowToStudent sampleIndex ["S1", "Alice", "-5", "10"] 2))).attendance_percentage
        = JNum.num (-100) ∧
    ¬ (0 ≤ (-100 : ℚ) ∧ (-100 : ℚ) ≤ 100) := by
  refine ⟨by decide, ?_, by norm_num⟩
  have h : trimStudent (mapRowToStudent sampleIndex ["S1", "Alice", "-5", "10"] 2)
      = { studentS1 with present_today := JNum.num (-5), leave_taken := JNum.num 10 } := by
    decide
  rw [h]
  simp [prepareRow, studentS1, hasAcademicData]
  norm_num [deriveAttendance, jsOrZero, jsToNum, jsRound2, jsRound]

/-- C5 (amended): whenever the two attendance inputs are not negative
numbers (null counts as 0), the derived percentage lies in `[0, 100]`. -/
theorem c5_percentage_range (p l : JNum)
    (hp : nonnegJNum p = true) (hl : nonnegJNum l = true) :
    0 ≤ deriveAttendance p l ∧ deriveAttendance p l ≤ 100 := by
  have hp0 : 0 ≤ jsOrZero p := by
    cases p <;> simp_all [nonnegJNum, jsOrZero]
  have hl0 : 0 ≤ jsOrZero l := by
    cases l <;> simp_all [nonnegJNum, jsOrZero]
  simp only [deriveAttendance]
  by_cases htot : 0 < jsOrZero p + jsOrZero l
  · rw [if_pos htot]
    cases p with
    | undef => simp [jsToNum]
    | null =>
      simp only [jsToNum]
      exact jsRound2_mem htot le_rfl (le_of_lt htot)
    | num q =>
      simp only [jsToNum]
      have hq : (0 : ℚ) ≤ q := by simpa [nonnegJNum] using hp
      refine jsRound2_mem htot hq ?_
      have hqz : jsOrZero (JNum.num q) = q := rfl
      rw [hqz]
      linarith
  · rw [if_neg htot]
    norm_num

/-- C5 witness: the in-range inputs 18 and 2 give a percentage in `[0,100]`. -/
theorem c5_percentage_range_witness :
    0 ≤ deriveAttendance (.num 18) (.num 2) ∧ deriveAttendance (.num 18) (.num 2) ≤ 100 :=
  c5_percentage_range (.num 18) (.num 2) (by decide) (by decide)

/-! ### Claim C1 — the academic-group omission rule across the pipeline -/

/-- The write payload the pipeline produces for the all-blank academic row
`["S2", "Bob", "", ""]`: the row loop of `syncGoogleSheet` deletes the four
academic fields and the percentage, then `upsertStudents` re-tests
`!== null` on the now-`undefined` fields, concludes the row has academic
data, and assigns a fresh `attendance_percentage`. -/
def payloadS2 : Payload :=
  upsertPayload (prepareRow (trimStudent (mapRowToStudent sampleIndex ["S2", "Bob", "", ""] 3)))

/-- C1 (failing evaluation): for a normalized row whose four academic
fields are all null, the write payload does omit the four fields, but it
does NOT omit the derived percentage: `attendance_percentage = 0` is
present and overwrites the stored value 95 — contradicting the claimed
all-or-nothing omission. -/
theorem c1_blank_academic_row_payload :
    payloadS2.cia_1_mark = JNum.undef ∧
    payloadS2.cia_2_mark = JNum.undef ∧
    payloadS2.present_today = JNum.undef ∧
    payloadS2.leave_taken = JNum.undef ∧
    payloadS2.attendance_percentage = JNum.num 0 ∧
    (applyPayload stored0 payloadS2).attendance_percentage = some 0 ∧
    stored0.attendance_percentage = some 95 := by
  have hrow : trimStudent (mapRowToStudent sampleIndex ["S2", "Bob", "", ""] 3) = studentS2 := by
    decide
  have hpct : payloadS2.attendance_percentage = JNum.num 0 := by
    simp only [payloadS2, hrow]
    simp [upsertPayload, prepareRow, studentS2, hasAcademicData]
    norm_num [deriveAttendance, jsOrZero, jsToNum, jsRound2, jsRound]
  refine ⟨by decide, by decide, by decide, by decide, hpct, ?_, rfl⟩
  simp [applyPayload, hpct]

/-! ### Claim C3 — blank profile fields in the write payload -/

/-- C3 counterexample: the source row `["S1", ""]` has a blank name, yet
the write payload carries `name = ""` and the upsert overwrites the stored
name `"Alice"` with the empty string — blank profile fields are NOT
omitted; only the contact fields receive that treatment. -/
theorem c3_blank_name_overwrites_store :
    (trimStudent (mapRowToStudent (buildHeaderIndex ["Register No", "Name"]) ["S1", ""] 2)).name
        = "" ∧
    (applyPayload stored0
      (upsertPayload (prepareRow
        (trimStudent (mapRowToStudent (buildHeaderIndex ["Register No", "Name"]) ["S1", ""] 2))))).name
        = "" ∧
    stored0.name = "Alice" := by
  refine ⟨by decide, by decide, rfl⟩

/-- C3 (amended): only the contact fields are sparse — a blank `email` or
`phone_number` is deleted from the payload and the stored contact value
survives the upsert; every other profile field (here `name`) is always in
the payload and overwrites the stored value unconditionally. -/
theorem c3_contact_field_omission (s : Student) :
    ((upsertPayload s).email = none ↔ jsTrim s.email = "") ∧
    ((upsertPayload s).phone_number = none ↔ jsTrim s.phone_number = "") ∧
    (∀ st : StoredStudent, jsTrim s.email = "" →
      (applyPayload st (upsertPayload s)).email = st.email) ∧
    (∀ st : StoredStudent, jsTrim s.phone_number = "" →
      (applyPayload st (upsertPayload s)).phone_number = st.phone_number) ∧
    (∀ st : StoredStudent, (applyPayload st (upsertPayload s)).name = s.name) := by
  have hemail : (upsertPayload s).email
      = if jsTrim s.email = "" then none else some s.email := by
    by_cases ha : hasAcademicData s = true <;> simp [upsertPayload, ha]
  have hphone : (upsertPayload s).phone_number
      = if jsTrim s.phone_number = "" then none else some s.phone_number := by
    by_cases ha : hasAcademicData s = true <;> simp [upsertPayload, ha]
  have hname : (upsertPayload s).name = s.name := by
    by_cases ha : hasAcademicData s = true <;> simp [upsertPayload, ha]
  refine ⟨?_, ?_, ?_, ?_, ?_⟩
  · rw [hemail]; split <;> simp_all
  · rw [hphone]; split <;> simp_all
  · intro st he
    simp [applyPayload, hemail, he]
  · intro st hp
    simp [applyPayload, hphone, hp]
  · intro st
    simpa [applyPayload] using hname

/-- C3 witness: S2's blank email leaves the stored address book entry
untouched. -/
theorem c3_contact_field_omission_witness :
    (applyPayload stored0 (upsertPayload studentS2)).email = stored0.email :=
  (c3_contact_field_omission studentS2).2.2.1 stored0 (by decide)

end SheetSync
